import Mathlib

/-!
Shallow embedding of `junkbegone.py`, a single-file Gmail classification
pipeline: it builds a label registry, selects uncategorized messages
newest-first, classifies each with an external LLM, applies the resulting
label idempotently and appends a CSV audit row.

External effects are modelled explicitly:
  * the Gmail provider state (label list, messages, and the CSV log file)
    is a `RunState` threaded through the functions;
  * external inputs (the LLM's response, provider-side failures of the
    label-modify call, provider-assigned ids for created labels, the id
    listing returned by the selection query, and the wall clock) are an
    `Env` of oracle functions;
  * Python exceptions are `Except RunError`: a raised exception that the
    source does not catch propagates, exactly as in Python;
  * `print` diagnostics are collected as a list of structured `Diag`
    values, one constructor per `print` statement of the source.
-/

namespace JunkBGone

/-- Source line 17: the six target labels, in source order. -/
def TARGET_LABELS : List String :=
  ["Interactions", "Advertisements", "Notices", "Documents", "Appointments", "Et Cetera"]

/-- Source line 20: Gmail system labels excluded by the selection query.
The query string itself is interpreted provider-side; the ids the provider
returns for it are an oracle input (`Env.queryIds`). -/
def SKIP_LABELS : List String := ["Promotions", "Social", "Updates"]

/-- A Gmail message as the pipeline sees it: receipt timestamp
(`internalDate`), headers as (name, value) pairs, snippet, and the mutable
set of applied label ids. -/
structure GmailMessage where
  internalDate : Nat
  headers : List (String × String)
  snippet : String
  labelIds : List String
  deriving Repr, DecidableEq

/-- One data row of the CSV audit log (source `append_log`, lines 93-99). -/
structure LogRow where
  mailId : String
  mailTitle : String
  summary : String
  category : String
  timestamp : String
  deriving Repr, DecidableEq

/-- The provider-plus-filesystem state the run reads and mutates:
the provider's label list (name, id), the messages keyed by id, the CSV
log's data rows, and whether the log file (hence its header row) exists. -/
structure RunState where
  labels : List (String × String)
  msgs : List (String × GmailMessage)
  log : List LogRow
  logHeaderWritten : Bool
  deriving Repr, DecidableEq

/-- Outcome of one OpenAI chat call, after `json.loads`: either an
exception (transport error, or non-JSON text — `json.loads` raises and
line 169's `except` catches both), or a parsed JSON object from which only
the optional string fields "summary" and "category" matter. -/
inductive LLMOutcome where
  | err (msg : String)
  | parsed (summary? : Option String) (category? : Option String)
  deriving Repr, DecidableEq

/-- The non-null return value of `classify_email_with_chatgpt`: the parsed
dict, whose "category" entry the adapter may have rewritten (lines 160-164). -/
structure ClassificationResult where
  summary : String
  category : String
  deriving Repr, DecidableEq

/-- The external world the run consults: the deterministic LLM response
for a (title, content) prompt, which messages the provider's label-modify
call fails on, provider-assigned ids for created labels (indexed by
creation order), the id listing the provider returns for the selection
query, and the wall-clock timestamp string used by `append_log`. -/
structure Env where
  llm : String → String → LLMOutcome
  modifyFails : String → Bool
  freshLabelId : Nat → String
  queryIds : List String
  now : String

/-- A Python exception that no source-level `except` catches, carrying the
id of the provider call that raised. -/
inductive RunError where
  | httpError (id : String)
  deriving Repr, DecidableEq

/-- Structured form of the source's `print` diagnostics, one constructor
per print statement (lines 211, 220, 226, 232, 253, 256). -/
inductive Diag where
  | foundEligible (n : Nat)
  | noEligible
  | couldNotClassify (id : String)
  | labelNotFound (category : String) (id : String)
  | alreadyLabeled (id : String) (category : String)
  | categorized (id : String) (category : String)
  deriving Repr, DecidableEq

/-- Whether a diagnostic is the success print of line 232 (emitted exactly
when a label-add mutation succeeded). -/
def Diag.isCategorized : Diag → Bool
  | .categorized _ _ => true
  | _ => false

/-- Python's `str.lower()` on the underlying character list. -/
def pyLower (s : String) : String :=
  ⟨s.data.map Char.toLower⟩

/-- Python's `str.strip()` on the underlying character list: drop leading
and trailing whitespace. -/
def stripList (l : List Char) : List Char :=
  ((l.dropWhile Char.isWhitespace).reverse.dropWhile Char.isWhitespace).reverse

/-- Python's `str.strip()`. -/
def pyStrip (s : String) : String :=
  ⟨stripList s.data⟩

/-- Source `get_existing_label` (lines 45-54): first label whose name
matches case-insensitively, else `none`. -/
def get_existing_label (labels : List (String × String)) (label_name : String) :
    Option String :=
  match labels with
  | [] => none
  | (name, id) :: rest =>
      if pyLower name = pyLower label_name then some id
      else get_existing_label rest label_name

/-- Worker for `initialize_target_labels`: folds over the remaining target
labels, looking each up and creating it when absent (`create_label`, lines
56-66, appends the new label to the provider's list; its id comes from the
`fresh` oracle, indexed by how many labels this run has created so far).
Returns the lowercased-name-to-id mapping and the final provider label list. -/
def initialize_target_labels_go (fresh : Nat → String) :
    List String → List (String × String) → Nat →
      List (String × String) × List (String × String)
  | [], labels, _ => ([], labels)
  | t :: ts, labels, created =>
      match get_existing_label labels t with
      | some id =>
          let r := initialize_target_labels_go fresh ts labels created
          ((pyLower t, id) :: r.1, r.2)
      | none =>
          let id := fresh created
          let r := initialize_target_labels_go fresh ts (labels ++ [(t, id)]) (created + 1)
          ((pyLower t, id) :: r.1, r.2)

/-- Source `initialize_target_labels` (lines 68-79): ensure all six target
labels exist; return the mapping from lowercased name to id, together with
the provider's label list after any creations. -/
def initialize_target_labels (labels : List (String × String)) (fresh : Nat → String) :
    List (String × String) × List (String × String) :=
  initialize_target_labels_go fresh TARGET_LABELS labels 0

/-- Source `classify_email_with_chatgpt` (lines 101-171), applied to the
oracle's outcome for this prompt: on an exception `None`; on a parsed
object missing "summary" or "category" `None` (line 167); otherwise the
stripped category, replaced by "Et Cetera" when its lowercasing is not
among the lowercased target labels (lines 160-164). -/
def classify_email_with_chatgpt (llm : String → String → LLMOutcome)
    (mail_title email_content : String) : Option ClassificationResult :=
  match llm mail_title email_content with
  | .err _ => none
  | .parsed summary? category? =>
      match summary?, category? with
      | some s, some c =>
          let category := pyStrip c
          let category :=
            if (TARGET_LABELS.map pyLower).contains (pyLower category) then category
            else "Et Cetera"
          some { summary := s, category := category }
      | _, _ => none

/-- The subject-extraction loop of `process_message` (lines 200-205):
first header named "subject" case-insensitively, else the empty string. -/
def find_subject : List (String × String) → String
  | [] => ""
  | (name, value) :: rest =>
      if pyLower name = "subject" then value else find_subject rest

/-- Source `append_log` (lines 81-99): append one data row to the CSV
file, writing the header first when the file does not exist yet. -/
def append_log (st : RunState) (mail_id mail_title summary category now : String) :
    RunState :=
  { st with
    log := st.log ++ [{ mailId := mail_id, mailTitle := mail_title,
                        summary := summary, category := category, timestamp := now }],
    logHeaderWritten := true }

/-- The provider's `messages wrapped get` by id: `none` models the HTTP
error Gmail raises for an unknown id. -/
def lookupMsg (msgs : List (String × GmailMessage)) (id : String) :
    Option GmailMessage :=
  match msgs with
  | [] => none
  | (i, m) :: rest => if i = id then some m else lookupMsg rest id

/-- Python `dict.get` on the label mapping (line 218). -/
def lookupLabel (mapping : List (String × String)) (key : String) : Option String :=
  match mapping with
  | [] => none
  | (k, v) :: rest => if k = key then some v else lookupLabel rest key

/-- The provider's label-modify with `{"addLabelIds": [label_id]}`
(line 231): adds the label to the message's label set if absent. -/
def addLabelTo (msgs : List (String × GmailMessage)) (id label_id : String) :
    List (String × GmailMessage) :=
  msgs.map fun p =>
    (p.1,
     if p.1 = id then
       { p.2 with labelIds :=
          if p.2.labelIds.contains label_id then p.2.labelIds
          else p.2.labelIds ++ [label_id] }
     else p.2)

/-- The prompt body built at line 207: `f"Subject: {mail_title}\nSnippet: {snippet}"`. -/
def email_content_of (mail_title snippet : String) : String :=
  s!"Subject: {mail_title}\nSnippet: {snippet}"

/-- Tail of `process_message` (lines 214-235), once classification has
produced a non-null result: resolve the label, skip when already applied,
else modify (which may raise) and log. -/
def apply_and_log (env : Env) (label_mapping : List (String × String))
    (st : RunState) (msg_id : String) (message : GmailMessage) (mail_title : String)
    (result : ClassificationResult) : Except RunError (RunState × List Diag) :=
  match lookupLabel label_mapping (pyLower (pyStrip result.category)) with
  | none => .ok (st, [.labelNotFound (pyStrip result.category) msg_id])
  | some label_id =>
      if message.labelIds.contains label_id then
        .ok (st, [.alreadyLabeled msg_id (pyStrip result.category)])
      else if env.modifyFails msg_id then
        .error (.httpError msg_id)
      else
        let st := { st with msgs := addLabelTo st.msgs msg_id label_id }
        let st := append_log st msg_id mail_title (pyStrip result.summary)
          (pyStrip result.category) env.now
        .ok (st, [.categorized msg_id (pyStrip result.category)])

/-- Body of `process_message` from line 206 on, after the subject has been
extracted: classify, then skip (line 210) or hand over to `apply_and_log`. -/
def process_message_core (env : Env) (label_mapping : List (String × String))
    (st : RunState) (msg_id : String) (message : GmailMessage) (mail_title : String) :
    Except RunError (RunState × List Diag) :=
  match classify_email_with_chatgpt env.llm mail_title
      (email_content_of mail_title message.snippet) with
  | none => .ok (st, [.couldNotClassify msg_id])
  | some result => apply_and_log env label_mapping st msg_id message mail_title result

/-- Source `process_message` (lines 191-235): fetch the message (an
unknown id raises), extract the subject, then run the core. -/
def process_message (env : Env) (label_mapping : List (String × String))
    (st : RunState) (msg_id : String) : Except RunError (RunState × List Diag) :=
  match lookupMsg st.msgs msg_id with
  | none => .error (.httpError msg_id)
  | some message =>
      process_message_core env label_mapping st msg_id message
        (find_subject message.headers)

/-- The metadata-fetch loop of `get_uncategorized_messages` (lines
183-186): fetch each listed id's `internalDate` (an unknown id raises). -/
def fetch_dates (msgs : List (String × GmailMessage)) :
    List String → Except RunError (List (String × Nat))
  | [] => .ok []
  | id :: ids =>
      match lookupMsg msgs id with
      | none => .error (.httpError id)
      | some m =>
          match fetch_dates msgs ids with
          | .error e => .error e
          | .ok rest => .ok ((id, m.internalDate) :: rest)

/-- Insert one (id, date) pair into a list sorted by date descending,
before the first element whose date is `≤` its own (so that, folding from
the left, earlier elements keep their position among equal dates — the
stability guarantee of Python's sort). -/
def insertByDateDesc (p : String × Nat) : List (String × Nat) → List (String × Nat)
  | [] => [p]
  | q :: qs => if q.2 ≤ p.2 then p :: q :: qs else q :: insertByDateDesc p qs

/-- Stable sort by date descending: the model of line 187's
`sort(key=lambda x: x["internalDate"], reverse=True)` (a stable descending
sort; stable sorts of the same list under the same key order agree). -/
def sortByDateDesc : List (String × Nat) → List (String × Nat)
  | [] => []
  | p :: ps => insertByDateDesc p (sortByDateDesc ps)

/-- Source `get_uncategorized_messages` (lines 173-189): fetch each listed
id's metadata, sort by `internalDate` descending, and return the ids. -/
def get_uncategorized_messages (msgs : List (String × GmailMessage))
    (queryIds : List String) : Except RunError (List String) :=
  match fetch_dates msgs queryIds with
  | .error e => .error e
  | .ok detailed => .ok ((sortByDateDesc detailed).map Prod.fst)

/-- Python's `messages[:count]` slice at line 258 for an `int` count:
nonnegative counts take a prefix, a negative count `-k` drops the last `k`
elements. -/
def pySlice (l : List α) (count : Int) : List α :=
  if 0 ≤ count then l.take count.toNat
  else l.take (l.length - (-count).toNat)

/-- The driver's per-message loop (lines 258-259): a raised exception
stops the whole run, as `main` catches nothing. -/
def process_loop (env : Env) (label_mapping : List (String × String))
    (st : RunState) : List String → Except RunError (RunState × List Diag)
  | [] => .ok (st, [])
  | id :: ids =>
      match process_message env label_mapping st id with
      | .error e => .error e
      | .ok r =>
          match process_loop env label_mapping r.1 ids with
          | .error e => .error e
          | .ok r2 => .ok (r2.1, r.2 ++ r2.2)

/-- Source `main` (lines 237-259): build the label registry, select
candidates, report the eligible count (or that none were found), resolve
the count bound (`--count` if given, else all) and process the slice. -/
def run_main (env : Env) (count? : Option Int) (st : RunState) :
    Except RunError (RunState × List Diag) :=
  let init := initialize_target_labels st.labels env.freshLabelId
  let label_mapping := init.1
  let st := { st with labels := init.2 }
  match get_uncategorized_messages st.msgs env.queryIds with
  | .error e => .error e
  | .ok messages =>
      if messages.isEmpty then .ok (st, [.noEligible])
      else
        let count : Int := match count? with | some c => c | none => (messages.length : Int)
        match process_loop env label_mapping st (pySlice messages count) with
        | .error e => .error e
        | .ok r => .ok (r.1, .foundEligible messages.length :: r.2)

/-! ### Specification-side definitions -/

/-- The receipt timestamp the selection sort uses for a listed id (`0` is
never consulted: selection fails on ids the provider does not know). -/
def dateOf (msgs : List (String × GmailMessage)) (id : String) : Nat :=
  ((lookupMsg msgs id).map GmailMessage.internalDate).getD 0

/-- How a provider message store may change during a run: no message
appears or disappears, `internalDate`, headers and snippet are untouched,
and label sets only grow. -/
def MsgsEvolve (msgs msgs' : List (String × GmailMessage)) : Prop :=
  ∀ j, (lookupMsg msgs j = none → lookupMsg msgs' j = none) ∧
    ∀ m, lookupMsg msgs j = some m →
      ∃ m', lookupMsg msgs' j = some m' ∧
        m'.internalDate = m.internalDate ∧ m'.headers = m.headers ∧
        m'.snippet = m.snippet ∧ ∀ l ∈ m.labelIds, l ∈ m'.labelIds

/-- A message on which `process_message` is a state no-op: it exists, and
if its classification resolves to a label id, that label is already
applied. -/
def StableFor (env : Env) (lmap : List (String × String))
    (msgs : List (String × GmailMessage)) (id : String) : Prop :=
  ∃ message, lookupMsg msgs id = some message ∧
    ∀ result, classify_email_with_chatgpt env.llm (find_subject message.headers)
        (email_content_of (find_subject message.headers) message.snippet) = some result →
      ∀ label_id, lookupLabel lmap (pyLower (pyStrip result.category)) = some label_id →
        label_id ∈ message.labelIds

/-! ### Concrete fixtures (used to instantiate the theorems) -/

/-- A provider label list already carrying the six target labels. -/
def sampleLabels : List (String × String) :=
  [("Interactions", "L1"), ("Advertisements", "L2"), ("Notices", "L3"),
   ("Documents", "L4"), ("Appointments", "L5"), ("Et Cetera", "L6")]

/-- A message with a Subject header, receipt timestamp 200. -/
def msgDoc : GmailMessage :=
  { internalDate := 200, headers := [("Subject", "hello")],
    snippet := "see attachment", labelIds := ["INBOX"] }

/-- A message with no Subject header, receipt timestamp 100. -/
def msgNoSubject : GmailMessage :=
  { internalDate := 100, headers := [("From", "alice")],
    snippet := "hi there", labelIds := [] }

/-- A two-message mailbox, labels pre-created, empty log. -/
def sampleState : RunState :=
  { labels := sampleLabels, msgs := [("m1", msgDoc), ("m2", msgNoSubject)],
    log := [], logHeaderWritten := false }

/-- A classifier oracle that always answers ("sum", "Documents"). -/
def docLLM : String → String → LLMOutcome :=
  fun _ _ => .parsed (some "sum") (some "Documents")

/-- The benign environment: deterministic classifier, no provider
failures, the query listing both messages (oldest first, to exercise the
sort). -/
def sampleEnv : Env :=
  { llm := docLLM, modifyFails := fun _ => false,
    freshLabelId := fun n => s!"F{n}", queryIds := ["m2", "m1"],
    now := "2026-01-01 00:00:00" }

/-- Same environment, but the provider's label-modify call fails on the
newest message "m1". -/
def failEnv : Env :=
  { sampleEnv with modifyFails := fun i => i == "m1" }

/-! ### Lemmas about the Python string primitives -/

theorem dropWhile_dropWhile_eq (p : α → Bool) (l : List α) :
    (l.dropWhile p).dropWhile p = l.dropWhile p := by
  cases h : l.dropWhile p with
  | nil => simp
  | cons x xs =>
      have hx : p x = false := by
        have h' := List.head?_dropWhile_not p l
        rw [h] at h'
        simpa using h'
      simp [List.dropWhile_cons, hx]

theorem stripList_stripList (l : List Char) :
    stripList (stripList l) = stripList l := by
  have key : ∀ m : List Char,
      (((m.dropWhile Char.isWhitespace).reverse.dropWhile Char.isWhitespace).reverse).dropWhile
          Char.isWhitespace
        = ((m.dropWhile Char.isWhitespace).reverse.dropWhile Char.isWhitespace).reverse := by
    intro m
    cases hrv : ((m.dropWhile Char.isWhitespace).reverse.dropWhile Char.isWhitespace).reverse with
    | nil => simp
    | cons x t =>
        have hlast : ((m.dropWhile Char.isWhitespace).reverse.dropWhile
            Char.isWhitespace).getLast? = some x := by
          rw [← List.head?_reverse, hrv]
          rfl
        have happ := List.takeWhile_append_dropWhile (p := Char.isWhitespace)
          (l := (m.dropWhile Char.isWhitespace).reverse)
        have hglast : (m.dropWhile Char.isWhitespace).reverse.getLast? = some x := by
          conv_lhs => rw [← happ]
          rw [List.getLast?_append, hlast]
          rfl
        have hhead : (m.dropWhile Char.isWhitespace).head? = some x := by
          rw [← List.getLast?_reverse]
          exact hglast
        have hpx : Char.isWhitespace x = false := by
          have h' := List.head?_dropWhile_not Char.isWhitespace m
          rw [hhead] at h'
          simpa using h'
        simp [List.dropWhile_cons, hpx]
  unfold stripList
  rw [key l, List.reverse_reverse, dropWhile_dropWhile_eq]

theorem pyStrip_pyStrip (s : String) : pyStrip (pyStrip s) = pyStrip s := by
  unfold pyStrip
  simp [stripList_stripList]

/-! ### Lemmas about the classifier adapter -/

/-- Unfolding of the adapter on a parsed response carrying both fields. -/
theorem classify_eq_of_parsed (llm : String → String → LLMOutcome) (t ct s c : String)
    (h : llm t ct = .parsed (some s) (some c)) :
    classify_email_with_chatgpt llm t ct =
      some { summary := s,
             category :=
               if (TARGET_LABELS.map pyLower).contains (pyLower (pyStrip c)) then pyStrip c
               else "Et Cetera" } := by
  unfold classify_email_with_chatgpt
  rw [h]

/-- Every non-null adapter result has an in-taxonomy category, and that
category string is already stripped (so `process_message`'s second strip
leaves it unchanged). -/
theorem classify_result_category (llm : String → String → LLMOutcome)
    (t ct : String) (r : ClassificationResult)
    (h : classify_email_with_chatgpt llm t ct = some r) :
    pyStrip r.category = r.category ∧
      (TARGET_LABELS.map pyLower).contains (pyLower r.category) = true := by
  unfold classify_email_with_chatgpt at h
  cases hl : llm t ct with
  | err m => rw [hl] at h; simp at h
  | parsed s? c? =>
      rw [hl] at h
      cases s? with
      | none => simp at h
      | some s =>
          cases c? with
          | none => simp at h
          | some c =>
              simp only [Option.some.injEq] at h
              split at h
              · next hc =>
                  cases h
                  exact ⟨pyStrip_pyStrip c, hc⟩
              · next hc =>
                  cases h
                  refine ⟨?_, ?_⟩
                  · show pyStrip "Et Cetera" = "Et Cetera"
                    decide
                  · show (TARGET_LABELS.map pyLower).contains (pyLower "Et Cetera") = true
                    decide

/-- The subject scan yields the empty string when no header is named
"subject" case-insensitively. -/
theorem find_subject_eq_empty (hs : List (String × String))
    (hns : ∀ h ∈ hs, pyLower h.1 ≠ "subject") : find_subject hs = "" := by
  induction hs with
  | nil => rfl
  | cons p ps ih =>
      obtain ⟨name, value⟩ := p
      show (if pyLower name = "subject" then value else find_subject ps) = ""
      rw [if_neg (hns (name, value) (List.mem_cons_self _ _))]
      exact ih fun h hmem => hns h (List.mem_cons_of_mem _ hmem)

/-! ### Lemmas about the provider message store -/

theorem lookupMsg_addLabelTo (msgs : List (String × GmailMessage)) (i lid j : String) :
    lookupMsg (addLabelTo msgs i lid) j =
      (lookupMsg msgs j).map fun m =>
        if j = i then
          { m with labelIds := if m.labelIds.contains lid then m.labelIds
                               else m.labelIds ++ [lid] }
        else m := by
  induction msgs with
  | nil => rfl
  | cons p ps ih =>
      obtain ⟨a, m⟩ := p
      by_cases haj : a = j
      · subst haj
        simp [addLabelTo, lookupMsg]
      · simpa [addLabelTo, lookupMsg, haj] using ih

theorem msgsEvolve_refl (msgs : List (String × GmailMessage)) : MsgsEvolve msgs msgs := by
  intro j
  refine ⟨fun h => h, fun m hm => ⟨m, hm, rfl, rfl, rfl, fun l hl => hl⟩⟩

theorem msgsEvolve_trans {m1 m2 m3 : List (String × GmailMessage)}
    (h12 : MsgsEvolve m1 m2) (h23 : MsgsEvolve m2 m3) : MsgsEvolve m1 m3 := by
  intro j
  obtain ⟨hn12, hs12⟩ := h12 j
  obtain ⟨hn23, hs23⟩ := h23 j
  refine ⟨fun h => hn23 (hn12 h), fun m hm => ?_⟩
  obtain ⟨m', hm', hd, hh, hsn, hl⟩ := hs12 m hm
  obtain ⟨m'', hm'', hd', hh', hsn', hl'⟩ := hs23 m' hm'
  exact ⟨m'', hm'', hd'.trans hd, hh'.trans hh, hsn'.trans hsn,
    fun l hlm => hl' l (hl l hlm)⟩

theorem addLabelTo_evolve (msgs : List (String × GmailMessage)) (i lid : String) :
    MsgsEvolve msgs (addLabelTo msgs i lid) := by
  intro j
  rw [lookupMsg_addLabelTo]
  refine ⟨fun h => by rw [h]; rfl, fun m hm => ?_⟩
  rw [hm]
  by_cases hji : j = i
  · subst hji
    refine ⟨_, rfl, by simp, by simp, by simp, ?_⟩
    intro l hl
    by_cases hc : lid ∈ m.labelIds <;> simp [hc, hl]
  · exact ⟨m, by simp [hji], rfl, rfl, rfl, fun l hl => hl⟩

/-- Big-step case analysis of a successful `process_message`: the message
was found, and the call either skipped for one of the three reasons, or
applied the label and appended exactly one log row. -/
theorem process_message_cases (env : Env) (lmap : List (String × String))
    (st : RunState) (id : String) (st' : RunState) (ds : List Diag)
    (h : process_message env lmap st id = .ok (st', ds)) :
    ∃ message, lookupMsg st.msgs id = some message ∧
      ((st' = st ∧ ds = [.couldNotClassify id] ∧
          classify_email_with_chatgpt env.llm (find_subject message.headers)
            (email_content_of (find_subject message.headers) message.snippet) = none) ∨
       ∃ result,
         classify_email_with_chatgpt env.llm (find_subject message.headers)
             (email_content_of (find_subject message.headers) message.snippet) = some result ∧
         ((st' = st ∧ ds = [.labelNotFound (pyStrip result.category) id] ∧
             lookupLabel lmap (pyLower (pyStrip result.category)) = none) ∨
          ∃ label_id, lookupLabel lmap (pyLower (pyStrip result.category)) = some label_id ∧
            ((st' = st ∧ ds = [.alreadyLabeled id (pyStrip result.category)] ∧
                message.labelIds.contains label_id = true) ∨
             (message.labelIds.contains label_id = false ∧ env.modifyFails id = false ∧
                st' = { labels := st.labels, msgs := addLabelTo st.msgs id label_id,
                        log := st.log ++ [{ mailId := id,
                                            mailTitle := find_subject message.headers,
                                            summary := pyStrip result.summary,
                                            category := pyStrip result.category,
                                            timestamp := env.now }],
                        logHeaderWritten := true } ∧
                ds = [.categorized id (pyStrip result.category)])))) := by
  unfold process_message at h
  split at h
  · exact Except.noConfusion h
  · rename_i message hm
    refine ⟨message, hm, ?_⟩
    simp only [process_message_core] at h
    split at h
    · rename_i hcl
      simp only [Except.ok.injEq, Prod.mk.injEq] at h
      exact Or.inl ⟨h.1.symm, h.2.symm, hcl⟩
    · rename_i result hcl
      refine Or.inr ⟨result, hcl, ?_⟩
      simp only [apply_and_log] at h
      split at h
      · rename_i hll
        simp only [Except.ok.injEq, Prod.mk.injEq] at h
        exact Or.inl ⟨h.1.symm, h.2.symm, hll⟩
      · rename_i label_id hll
        refine Or.inr ⟨label_id, hll, ?_⟩
        split at h
        · rename_i hct
          simp only [Except.ok.injEq, Prod.mk.injEq] at h
          exact Or.inl ⟨h.1.symm, h.2.symm, hct⟩
        · rename_i hct
          split at h
          · exact Except.noConfusion h
          · rename_i hmf
            simp only [append_log, Except.ok.injEq, Prod.mk.injEq] at h
            exact Or.inr ⟨by simpa using hct, by simpa using hmf,
              h.1.symm, h.2.symm⟩

theorem process_message_evolve (env : Env) (lmap : List (String × String))
    (st : RunState) (id : String) (st' : RunState) (ds : List Diag)
    (h : process_message env lmap st id = .ok (st', ds)) :
    MsgsEvolve st.msgs st'.msgs := by
  obtain ⟨message, hm, hc⟩ := process_message_cases env lmap st id st' ds h
  rcases hc with ⟨hst, -, -⟩ | ⟨result, -, hc⟩
  · rw [hst]; exact msgsEvolve_refl _
  rcases hc with ⟨hst, -, -⟩ | ⟨label_id, -, hc⟩
  · rw [hst]; exact msgsEvolve_refl _
  rcases hc with ⟨hst, -, -⟩ | ⟨-, -, hst, -⟩
  · rw [hst]; exact msgsEvolve_refl _
  · rw [hst]; exact addLabelTo_evolve st.msgs id label_id

theorem process_message_frame (env : Env) (lmap : List (String × String))
    (st : RunState) (id : String) (st' : RunState) (ds : List Diag)
    (h : process_message env lmap st id = .ok (st', ds)) :
    st'.labels = st.labels ∧
    (∀ j, j ≠ id → lookupMsg st'.msgs j = lookupMsg st.msgs j) ∧
    ∃ rows, st'.log = st.log ++ rows ∧ (∀ row ∈ rows, row.mailId = id) ∧
      rows.length = (ds.filter Diag.isCategorized).length ∧ rows.length ≤ 1 := by
  obtain ⟨message, hm, hc⟩ := process_message_cases env lmap st id st' ds h
  rcases hc with ⟨hst, hds, -⟩ | ⟨result, -, hc⟩
  · subst hst; subst hds
    exact ⟨rfl, fun j _ => rfl, ⟨[], by simp, by simp, by rfl, by simp⟩⟩
  rcases hc with ⟨hst, hds, -⟩ | ⟨label_id, -, hc⟩
  · subst hst; subst hds
    exact ⟨rfl, fun j _ => rfl, ⟨[], by simp, by simp, by rfl, by simp⟩⟩
  rcases hc with ⟨hst, hds, -⟩ | ⟨-, -, hst, hds⟩
  · subst hst; subst hds
    exact ⟨rfl, fun j _ => rfl, ⟨[], by simp, by simp, by rfl, by simp⟩⟩
  · subst hst; subst hds
    refine ⟨rfl, ?_, ?_⟩
    · intro j hij
      show lookupMsg (addLabelTo st.msgs id label_id) j = lookupMsg st.msgs j
      rw [lookupMsg_addLabelTo]
      cases lookupMsg st.msgs j with
      | none => rfl
      | some m => simp [hij]
    · refine ⟨[_], rfl, by simp, by rfl, by simp⟩

theorem process_message_stable (env : Env) (lmap : List (String × String))
    (st : RunState) (id : String) (st' : RunState) (ds : List Diag)
    (h : process_message env lmap st id = .ok (st', ds)) :
    StableFor env lmap st'.msgs id := by
  obtain ⟨message, hm, hc⟩ := process_message_cases env lmap st id st' ds h
  rcases hc with ⟨hst, -, hcl⟩ | ⟨result, hcl, hc⟩
  · subst hst
    exact ⟨message, hm, fun r hr => by rw [hcl] at hr; cases hr⟩
  rcases hc with ⟨hst, -, hll⟩ | ⟨label_id, hll, hc⟩
  · subst hst
    refine ⟨message, hm, fun r hr lid hlid => ?_⟩
    rw [hcl] at hr
    injection hr with hr
    subst hr
    rw [hll] at hlid
    cases hlid
  rcases hc with ⟨hst, -, hct⟩ | ⟨hct, hmf, hst, -⟩
  · subst hst
    refine ⟨message, hm, fun r hr lid hlid => ?_⟩
    rw [hcl] at hr
    injection hr with hr
    subst hr
    rw [hll] at hlid
    injection hlid with hlid
    subst hlid
    simpa using hct
  · subst hst
    have hm' : lookupMsg (addLabelTo st.msgs id label_id) id
        = some { message with labelIds := message.labelIds ++ [label_id] } := by
      rw [lookupMsg_addLabelTo, hm]
      have hmem : label_id ∉ message.labelIds := by simpa using hct
      simp [hmem]
    refine ⟨_, hm', fun r hr lid hlid => ?_⟩
    have hr' : classify_email_with_chatgpt env.llm (find_subject message.headers)
        (email_content_of (find_subject message.headers) message.snippet) = some r := hr
    rw [hcl] at hr'
    injection hr' with hr'
    subst hr'
    rw [hll] at hlid
    injection hlid with hlid
    subst hlid
    show label_id ∈ message.labelIds ++ [label_id]
    simp

theorem stableFor_evolve (env : Env) (lmap : List (String × String))
    (msgs msgs' : List (String × GmailMessage)) (id : String)
    (hev : MsgsEvolve msgs msgs') (hst : StableFor env lmap msgs id) :
    StableFor env lmap msgs' id := by
  obtain ⟨message, hm, hstb⟩ := hst
  obtain ⟨-, hs⟩ := hev id
  obtain ⟨m', hm', hd, hh, hsn, hsub⟩ := hs message hm
  refine ⟨m', hm', fun r hr lid hlid => ?_⟩
  rw [hh, hsn] at hr
  exact hsub _ (hstb r hr lid hlid)

theorem stableFor_noop (env : Env) (lmap : List (String × String))
    (st : RunState) (id : String) (hst : StableFor env lmap st.msgs id) :
    ∃ ds, process_message env lmap st id = .ok (st, ds) ∧
      ∀ d ∈ ds, d.isCategorized = false := by
  obtain ⟨message, hm, hstb⟩ := hst
  have hpm : ∀ ds, process_message_core env lmap st id message (find_subject message.headers)
      = .ok (st, ds) → process_message env lmap st id = .ok (st, ds) := by
    intro ds hds
    unfold process_message
    rw [hm]
    exact hds
  cases hcl : classify_email_with_chatgpt env.llm (find_subject message.headers)
      (email_content_of (find_subject message.headers) message.snippet) with
  | none =>
      refine ⟨[.couldNotClassify id], hpm _ ?_, by intro d hd; simp at hd; subst hd; rfl⟩
      unfold process_message_core
      rw [hcl]
  | some result =>
      have hcore : ∀ ds, apply_and_log env lmap st id message (find_subject message.headers)
          result = .ok (st, ds) →
          process_message_core env lmap st id message (find_subject message.headers)
            = .ok (st, ds) := by
        intro ds hds
        unfold process_message_core
        rw [hcl]
        exact hds
      cases hll : lookupLabel lmap (pyLower (pyStrip result.category)) with
      | none =>
          refine ⟨[.labelNotFound (pyStrip result.category) id], hpm _ (hcore _ ?_),
            by intro d hd; simp at hd; subst hd; rfl⟩
          unfold apply_and_log
          rw [hll]
      | some label_id =>
          have hct : message.labelIds.contains label_id = true := by
            simpa using hstb result hcl label_id hll
          refine ⟨[.alreadyLabeled id (pyStrip result.category)], hpm _ (hcore _ ?_),
            by intro d hd; simp at hd; subst hd; rfl⟩
          unfold apply_and_log
          rw [hll]
          exact if_pos hct

/-- Invariant of the driver loop: labels untouched, messages only gain
labels, untouched ids keep their exact state, exactly one appended log row
per success diagnostic (with distinct mail ids when the processed ids are
distinct), and every processed id ends up stable. -/
theorem process_loop_spec (env : Env) (lmap : List (String × String)) :
    ∀ (ids : List String) (st st' : RunState) (ds : List Diag),
      process_loop env lmap st ids = .ok (st', ds) →
      st'.labels = st.labels ∧
      MsgsEvolve st.msgs st'.msgs ∧
      (∀ j, j ∉ ids → lookupMsg st'.msgs j = lookupMsg st.msgs j) ∧
      (∃ rows, st'.log = st.log ++ rows ∧ (∀ row ∈ rows, row.mailId ∈ ids) ∧
        rows.length = (ds.filter Diag.isCategorized).length ∧
        (ids.Nodup → (rows.map LogRow.mailId).Nodup)) ∧
      (∀ id ∈ ids, StableFor env lmap st'.msgs id) := by
  intro ids
  induction ids with
  | nil =>
      intro st st' ds h
      simp only [process_loop, Except.ok.injEq, Prod.mk.injEq] at h
      obtain ⟨h1, h2⟩ := h
      subst h1
      subst h2
      exact ⟨rfl, msgsEvolve_refl _, fun j _ => rfl,
        ⟨[], by simp, by simp, by rfl, by simp⟩, by simp⟩
  | cons id ids ih =>
      intro st st' ds h
      simp only [process_loop] at h
      split at h
      · exact Except.noConfusion h
      · rename_i r hpm
        split at h
        · exact Except.noConfusion h
        · rename_i r2 hpl
          simp only [Except.ok.injEq, Prod.mk.injEq] at h
          obtain ⟨h1, h2⟩ := h
          subst h1
          subst h2
          obtain ⟨hlab1, hunt1, rows1, hlog1, hmid1, hlen1, hle1⟩ :=
            process_message_frame env lmap st id r.1 r.2 hpm
          have hev1 : MsgsEvolve st.msgs r.1.msgs :=
            process_message_evolve env lmap st id r.1 r.2 hpm
          have hstb1 : StableFor env lmap r.1.msgs id :=
            process_message_stable env lmap st id r.1 r.2 hpm
          obtain ⟨hlab2, hev2, hunt2, ⟨rows2, hlog2, hmid2, hlen2, hnd2⟩, hstb2⟩ :=
            ih r.1 r2.1 r2.2 hpl
          refine ⟨hlab2.trans hlab1, msgsEvolve_trans hev1 hev2, ?_, ?_, ?_⟩
          · intro j hj
            have hj1 : j ≠ id := fun hc => hj (hc ▸ List.mem_cons_self id ids)
            have hj2 : j ∉ ids := fun hc => hj (List.mem_cons_of_mem id hc)
            exact (hunt2 j hj2).trans (hunt1 j hj1)
          · refine ⟨rows1 ++ rows2, by rw [hlog2, hlog1, List.append_assoc], ?_, ?_, ?_⟩
            · intro row hrow
              rcases List.mem_append.mp hrow with h1 | h2
              · exact (hmid1 row h1) ▸ List.mem_cons_self id ids
              · exact List.mem_cons_of_mem id (hmid2 row h2)
            · rw [List.length_append, List.filter_append, List.length_append,
                hlen1, hlen2]
            · intro hnd
              rw [List.map_append, List.nodup_append]
              obtain ⟨hid, hnd'⟩ := List.nodup_cons.mp hnd
              refine ⟨?_, hnd2 hnd', ?_⟩
              · rcases rows1 with - | ⟨row, rest⟩
                · simp
                · have : rest = [] := by
                    have := hle1
                    simp at this
                    exact this
                  subst this
                  simp
              · intro a ha hb
                obtain ⟨row1, hrow1, hrow1'⟩ := List.mem_map.mp ha
                obtain ⟨row2, hrow2, hrow2'⟩ := List.mem_map.mp hb
                have ha' : a = id := hrow1'.symm.trans (hmid1 row1 hrow1)
                have hb' : a ∈ ids := by
                  rw [← hrow2']
                  exact hmid2 row2 hrow2
                exact hid (ha' ▸ hb')
          · intro i hi
            rcases List.mem_cons.mp hi with h1 | h2
            · subst h1
              exact stableFor_evolve env lmap r.1.msgs r2.1.msgs i hev2 hstb1
            · exact hstb2 i h2

/-- A loop over ids that are all stable leaves the state unchanged and
emits no success diagnostic. -/
theorem process_loop_noop (env : Env) (lmap : List (String × String)) :
    ∀ (ids : List String) (st : RunState),
      (∀ id ∈ ids, StableFor env lmap st.msgs id) →
      ∃ ds, process_loop env lmap st ids = .ok (st, ds) ∧
        ∀ d ∈ ds, d.isCategorized = false := by
  intro ids
  induction ids with
  | nil => exact fun st _ => ⟨[], rfl, by simp⟩
  | cons id ids ih =>
      intro st hstb
      obtain ⟨ds1, hds1, hnc1⟩ :=
        stableFor_noop env lmap st id (hstb id (List.mem_cons_self id ids))
      obtain ⟨ds2, hds2, hnc2⟩ :=
        ih st (fun i hi => hstb i (List.mem_cons_of_mem id hi))
      refine ⟨ds1 ++ ds2, ?_, ?_⟩
      · simp only [process_loop, hds1, hds2]
      · intro d hd
        rcases List.mem_append.mp hd with h1 | h2
        · exact hnc1 d h1
        · exact hnc2 d h2

/-! ### Lemmas about the message selector -/

theorem fetch_dates_congr (msgs msgs' : List (String × GmailMessage))
    (hev : MsgsEvolve msgs msgs') :
    ∀ ids, fetch_dates msgs' ids = fetch_dates msgs ids := by
  intro ids
  induction ids with
  | nil => rfl
  | cons id ids ih =>
      obtain ⟨hn, hs⟩ := hev id
      unfold fetch_dates
      cases hm : lookupMsg msgs id with
      | none =>
          rw [hn hm]
      | some m =>
          obtain ⟨m', hm', hd, -, -, -⟩ := hs m hm
          rw [hm', ih]
          cases fetch_dates msgs ids with
          | error e => rfl
          | ok rest => simp [hd]

theorem fetch_dates_fst (msgs : List (String × GmailMessage)) :
    ∀ ids detailed, fetch_dates msgs ids = .ok detailed →
      detailed.map Prod.fst = ids := by
  intro ids
  induction ids with
  | nil =>
      intro detailed h
      simp only [fetch_dates, Except.ok.injEq] at h
      subst h
      rfl
  | cons id ids ih =>
      intro detailed h
      unfold fetch_dates at h
      split at h
      · exact Except.noConfusion h
      · rename_i m hm
        split at h
        · exact Except.noConfusion h
        · rename_i rest hrest
          simp only [Except.ok.injEq] at h
          subst h
          simp [ih rest hrest]

theorem fetch_dates_mem (msgs : List (String × GmailMessage)) :
    ∀ ids detailed, fetch_dates msgs ids = .ok detailed →
      ∀ p ∈ detailed, dateOf msgs p.1 = p.2 := by
  intro ids
  induction ids with
  | nil =>
      intro detailed h
      simp only [fetch_dates, Except.ok.injEq] at h
      subst h
      simp
  | cons id ids ih =>
      intro detailed h
      unfold fetch_dates at h
      split at h
      · exact Except.noConfusion h
      · rename_i m hm
        split at h
        · exact Except.noConfusion h
        · rename_i rest hrest
          simp only [Except.ok.injEq] at h
          subst h
          intro p hp
          rcases List.mem_cons.mp hp with h1 | h2
          · subst h1
            simp [dateOf, hm]
          · exact ih rest hrest p h2

theorem insertByDateDesc_perm (p : String × Nat) (l : List (String × Nat)) :
    (insertByDateDesc p l).Perm (p :: l) := by
  induction l with
  | nil => exact List.Perm.refl _
  | cons q qs ih =>
      show (if q.2 ≤ p.2 then p :: q :: qs else q :: insertByDateDesc p qs).Perm _
      split
      · exact List.Perm.refl _
      · exact (List.Perm.cons q ih).trans (List.Perm.swap p q qs)

theorem sortByDateDesc_perm (l : List (String × Nat)) :
    (sortByDateDesc l).Perm l := by
  induction l with
  | nil => exact List.Perm.refl _
  | cons p ps ih =>
      exact (insertByDateDesc_perm p (sortByDateDesc ps)).trans (List.Perm.cons p ih)

theorem insertByDateDesc_sorted (p : String × Nat) (l : List (String × Nat))
    (hl : l.Pairwise (fun a b => b.2 ≤ a.2)) :
    (insertByDateDesc p l).Pairwise (fun a b => b.2 ≤ a.2) := by
  induction l with
  | nil => simp [insertByDateDesc]
  | cons q qs ih =>
      obtain ⟨hq, hqs⟩ := List.pairwise_cons.mp hl
      show (if q.2 ≤ p.2 then p :: q :: qs else q :: insertByDateDesc p qs).Pairwise _
      split
      · rename_i hle
        refine List.pairwise_cons.mpr ⟨?_, hl⟩
        intro x hx
        rcases List.mem_cons.mp hx with h1 | h2
        · rw [h1]; exact hle
        · exact (hq x h2).trans hle
      · rename_i hgt
        refine List.pairwise_cons.mpr ⟨?_, ih hqs⟩
        intro x hx
        have hx' : x ∈ p :: qs := (insertByDateDesc_perm p qs).mem_iff.mp hx
        rcases List.mem_cons.mp hx' with h1 | h2
        · rw [h1]; omega
        · exact hq x h2

theorem sortByDateDesc_sorted (l : List (String × Nat)) :
    (sortByDateDesc l).Pairwise (fun a b => b.2 ≤ a.2) := by
  induction l with
  | nil => exact List.Pairwise.nil
  | cons p ps ih => exact insertByDateDesc_sorted p (sortByDateDesc ps) ih

theorem get_uncategorized_congr (msgs msgs' : List (String × GmailMessage))
    (qids : List String) (hev : MsgsEvolve msgs msgs') :
    get_uncategorized_messages msgs' qids = get_uncategorized_messages msgs qids := by
  unfold get_uncategorized_messages
  rw [fetch_dates_congr msgs msgs' hev]

theorem get_uncategorized_perm (msgs : List (String × GmailMessage))
    (qids sel : List String)
    (h : get_uncategorized_messages msgs qids = .ok sel) : sel.Perm qids := by
  unfold get_uncategorized_messages at h
  split at h
  · exact Except.noConfusion h
  · rename_i detailed hdet
    simp only [Except.ok.injEq] at h
    subst h
    have hperm := sortByDateDesc_perm detailed
    have := hperm.map Prod.fst
    rw [fetch_dates_fst msgs qids detailed hdet] at this
    exact this

/-! ### Lemmas about the label registry -/

theorem get_existing_label_append (ls ext : List (String × String)) (t : String) :
    get_existing_label (ls ++ ext) t
      = (get_existing_label ls t).or (get_existing_label ext t) := by
  induction ls with
  | nil => rfl
  | cons p ps ih =>
      obtain ⟨name, id⟩ := p
      by_cases hn : pyLower name = pyLower t
      · simp [get_existing_label, hn]
      · simpa [get_existing_label, hn] using ih

theorem initialize_go_extend (f : Nat → String) :
    ∀ (ts : List String) (ls : List (String × String)) (n : Nat),
      ∃ ext, (initialize_target_labels_go f ts ls n).2 = ls ++ ext := by
  intro ts
  induction ts with
  | nil => exact fun ls n => ⟨[], by simp [initialize_target_labels_go]⟩
  | cons t ts ih =>
      intro ls n
      unfold initialize_target_labels_go
      cases hex : get_existing_label ls t with
      | some id => exact ih ls n
      | none =>
          obtain ⟨ext, hext⟩ := ih (ls ++ [(t, f n)]) (n + 1)
          exact ⟨[(t, f n)] ++ ext, by rw [hext, List.append_assoc]⟩

/-- Running the registry again over the label list it produced finds every
target already present and recreates the identical mapping without
touching the provider's labels. -/
theorem initialize_go_stable (f g : Nat → String) :
    ∀ (ts : List String) (ls : List (String × String)) (n n' : Nat),
      initialize_target_labels_go g ts (initialize_target_labels_go f ts ls n).2 n'
        = initialize_target_labels_go f ts ls n := by
  intro ts
  induction ts with
  | nil => intro ls n n'; rfl
  | cons t ts ih =>
      intro ls n n'
      cases hex : get_existing_label ls t with
      | some id =>
          obtain ⟨ext, hext⟩ := initialize_go_extend f ts ls n
          have hex2 : get_existing_label (initialize_target_labels_go f ts ls n).2 t
              = some id := by
            rw [hext, get_existing_label_append, hex]
            rfl
          simp only [initialize_target_labels_go, hex, hex2, ih ls n n']
      | none =>
          obtain ⟨ext, hext⟩ := initialize_go_extend f ts (ls ++ [(t, f n)]) (n + 1)
          have hex2 : get_existing_label
              (initialize_target_labels_go f ts (ls ++ [(t, f n)]) (n + 1)).2 t
              = some (f n) := by
            rw [hext, List.append_assoc]
            simp [get_existing_label_append, hex, get_existing_label]
          simp only [initialize_target_labels_go, hex, hex2,
            ih (ls ++ [(t, f n)]) (n + 1) n']

theorem initialize_target_labels_stable (ls : List (String × String))
    (f g : Nat → String) :
    initialize_target_labels (initialize_target_labels ls f).2 g
      = initialize_target_labels ls f :=
  initialize_go_stable f g TARGET_LABELS ls 0 0

theorem initialize_go_keys (f : Nat → String) :
    ∀ (ts : List String) (ls : List (String × String)) (n : Nat),
      (initialize_target_labels_go f ts ls n).1.map Prod.fst = ts.map pyLower := by
  intro ts
  induction ts with
  | nil => intro ls n; rfl
  | cons t ts ih =>
      intro ls n
      unfold initialize_target_labels_go
      cases get_existing_label ls t with
      | some id => simp [ih]
      | none => simp [ih]

theorem lookupLabel_isSome_of_key_mem (m : List (String × String)) (k : String)
    (h : k ∈ m.map Prod.fst) : (lookupLabel m k).isSome = true := by
  induction m with
  | nil => simp at h
  | cons p ps ih =>
      by_cases hk : p.1 = k
      · simp [lookupLabel, hk]
      · rw [List.map_cons, List.mem_cons] at h
        rcases h with h1 | h2
        · exact absurd h1.symm hk
        · simpa [lookupLabel, hk] using ih h2

/-! ### Lemmas about the driver -/

theorem pySlice_zero (l : List α) : pySlice l 0 = [] := by
  simp [pySlice]

theorem pySlice_nonneg (l : List α) (n : Nat) : pySlice l (n : Int) = l.take n := by
  simp [pySlice]

theorem pySlice_neg (l : List α) (k : Nat) (hk : 0 < k) :
    pySlice l (-(k : Int)) = l.take (l.length - k) := by
  unfold pySlice
  rw [if_neg (by omega)]
  simp

theorem pySlice_sublist (l : List α) (c : Int) : (pySlice l c).Sublist l := by
  unfold pySlice
  split
  · exact List.take_sublist _ l
  · exact List.take_sublist _ l

/-- The driver on a selection error: the run aborts with that error. -/
theorem run_main_sel_error (env : Env) (count? : Option Int) (st : RunState)
    (e : RunError)
    (hsel : get_uncategorized_messages st.msgs env.queryIds = .error e) :
    run_main env count? st = .error e := by
  simp only [run_main]
  rw [hsel]

/-- Characterization of the driver once the selection result is known. -/
theorem run_main_eq (env : Env) (count? : Option Int) (st : RunState)
    (sel : List String)
    (hsel : get_uncategorized_messages st.msgs env.queryIds = .ok sel) :
    run_main env count? st =
      if sel.isEmpty then
        .ok ({ st with labels := (initialize_target_labels st.labels env.freshLabelId).2 },
             [.noEligible])
      else
        match process_loop env (initialize_target_labels st.labels env.freshLabelId).1
            { st with labels := (initialize_target_labels st.labels env.freshLabelId).2 }
            (pySlice sel (match count? with
                          | some c => c
                          | none => (sel.length : Int))) with
        | .error e => .error e
        | .ok r => .ok (r.1, .foundEligible sel.length :: r.2) := by
  simp only [run_main]
  rw [hsel]

/-- C3: Normalization invariant. If the classifier's parsed output carries
both required fields but its category string (after Python's strip) is not
a case-insensitive match of one of the six fixed category names, the
adapter's result category equals "Et Cetera"; and every non-null adapter
result's category is a case-insensitive match of one of the six fixed
names, so the caller never receives an out-of-taxonomy category. -/
theorem C3_normalization_invariant :
    (∀ (llm : String → String → LLMOutcome) (t ct s c : String),
        llm t ct = .parsed (some s) (some c) →
        (TARGET_LABELS.map pyLower).contains (pyLower (pyStrip c)) = false →
        classify_email_with_chatgpt llm t ct = some { summary := s, category := "Et Cetera" })
    ∧ (∀ (llm : String → String → LLMOutcome) (t ct : String) (r : ClassificationResult),
        classify_email_with_chatgpt llm t ct = some r →
        (TARGET_LABELS.map pyLower).contains (pyLower r.category) = true) := by
  constructor
  · intro llm t ct s c h hc
    rw [classify_eq_of_parsed llm t ct s c h, hc]
    simp
  · intro llm t ct r h
    exact (classify_result_category llm t ct r h).2

/-- Concrete instantiation of `C3_normalization_invariant`: a classifier
answering the out-of-taxonomy category "Spam" yields "Et Cetera". -/
theorem C3_normalization_invariant_witness :
    classify_email_with_chatgpt (fun _ _ => .parsed (some "short") (some "Spam"))
        "title" "content"
      = some { summary := "short", category := "Et Cetera" } :=
  C3_normalization_invariant.1 (fun _ _ => .parsed (some "short") (some "Spam"))
    "title" "content" "short" "Spam" rfl (by decide)

/-- C4: Every per-message classification failure — a transport or provider
error during the call (which also covers non-parseable output, since
`json.loads` raises into the same handler), or a parsed output missing the
"summary" or the "category" field — makes the adapter return `None`; the
caller then skips the message with only a diagnostic, mutating no label and
appending no log row, and the loop continues with the next candidate. -/
theorem C4_classification_failure_skips :
    (∀ (llm : String → String → LLMOutcome) (t ct m : String),
        llm t ct = .err m → classify_email_with_chatgpt llm t ct = none)
    ∧ (∀ (llm : String → String → LLMOutcome) (t ct : String) (c? : Option String),
        llm t ct = .parsed none c? → classify_email_with_chatgpt llm t ct = none)
    ∧ (∀ (llm : String → String → LLMOutcome) (t ct : String) (s? : Option String),
        llm t ct = .parsed s? none → classify_email_with_chatgpt llm t ct = none)
    ∧ (∀ (env : Env) (lmap : List (String × String)) (st : RunState)
        (id : String) (rest : List String) (message : GmailMessage),
        lookupMsg st.msgs id = some message →
        classify_email_with_chatgpt env.llm (find_subject message.headers)
            (email_content_of (find_subject message.headers) message.snippet) = none →
        process_loop env lmap st (id :: rest)
          = match process_loop env lmap st rest with
            | .error e => .error e
            | .ok r2 => .ok (r2.1, .couldNotClassify id :: r2.2)) := by
  refine ⟨?_, ?_, ?_, ?_⟩
  · intro llm t ct m h
    unfold classify_email_with_chatgpt
    rw [h]
  · intro llm t ct c? h
    unfold classify_email_with_chatgpt
    rw [h]
  · intro llm t ct s? h
    unfold classify_email_with_chatgpt
    rw [h]
    cases s? <;> rfl
  · intro env lmap st id rest message hmsg hcl
    have hpm : process_message env lmap st id = .ok (st, [.couldNotClassify id]) := by
      simp only [process_message, process_message_core, hmsg]
      rw [hcl]
    cases h2 : process_loop env lmap st rest with
    | error e => simp only [process_loop, hpm, h2]
    | ok r2 =>
        simp only [process_loop, hpm, h2]
        rfl

/-- Concrete instantiation of `C4_classification_failure_skips`: a
transport error on the sole candidate leaves the mailbox and log unchanged
and the loop finishes normally. -/
theorem C4_classification_failure_skips_witness :
    process_loop
        { llm := fun _ _ => .err "boom", modifyFails := fun _ => false,
          freshLabelId := fun n => s!"F{n}", queryIds := ["m1"], now := "ts" }
        [("interactions", "L1")]
        { labels := [("Interactions", "L1")],
          msgs := [("m1", { internalDate := 5, headers := [("Subject", "hi")],
                            snippet := "sn", labelIds := [] })],
          log := [], logHeaderWritten := false }
        ["m1"]
      = .ok ({ labels := [("Interactions", "L1")],
               msgs := [("m1", { internalDate := 5, headers := [("Subject", "hi")],
                                 snippet := "sn", labelIds := [] })],
               log := [], logHeaderWritten := false },
             [.couldNotClassify "m1"]) := by
  rw [C4_classification_failure_skips.2.2.2
    { llm := fun _ _ => .err "boom", modifyFails := fun _ => false,
      freshLabelId := fun n => s!"F{n}", queryIds := ["m1"], now := "ts" }
    [("interactions", "L1")]
    { labels := [("Interactions", "L1")],
      msgs := [("m1", { internalDate := 5, headers := [("Subject", "hi")],
                        snippet := "sn", labelIds := [] })],
      log := [], logHeaderWritten := false }
    "m1" []
    { internalDate := 5, headers := [("Subject", "hi")], snippet := "sn", labelIds := [] }
    (by decide) rfl]
  rfl

/-- C8: the taxonomy-mismatch branch is unreachable when the label map
comes from `initialize_target_labels` over the same `TARGET_LABELS`: every
non-null classification result's lowercased (stripped) category is a key
of that mapping, and `process_message` never emits the
"Label not found" diagnostic. -/
theorem C8_label_not_found_unreachable :
    (∀ (llm : String → String → LLMOutcome) (t ct : String)
        (r : ClassificationResult) (labels0 : List (String × String))
        (fresh : Nat → String),
        classify_email_with_chatgpt llm t ct = some r →
        (lookupLabel (initialize_target_labels labels0 fresh).1
            (pyLower (pyStrip r.category))).isSome = true)
    ∧ (∀ (env : Env) (labels0 : List (String × String)) (fresh : Nat → String)
        (st st' : RunState) (id : String) (ds : List Diag),
        process_message env (initialize_target_labels labels0 fresh).1 st id
          = .ok (st', ds) →
        ∀ c i, Diag.labelNotFound c i ∉ ds) := by
  have hkey : ∀ (llm : String → String → LLMOutcome) (t ct : String)
      (r : ClassificationResult) (labels0 : List (String × String))
      (fresh : Nat → String),
      classify_email_with_chatgpt llm t ct = some r →
      (lookupLabel (initialize_target_labels labels0 fresh).1
          (pyLower (pyStrip r.category))).isSome = true := by
    intro llm t ct r labels0 fresh h
    obtain ⟨hstrip, hmem⟩ := classify_result_category llm t ct r h
    rw [hstrip]
    apply lookupLabel_isSome_of_key_mem
    show pyLower r.category
      ∈ (initialize_target_labels_go fresh TARGET_LABELS labels0 0).1.map Prod.fst
    rw [initialize_go_keys fresh TARGET_LABELS labels0 0]
    simpa using hmem
  refine ⟨hkey, ?_⟩
  intro env labels0 fresh st st' id ds h c i hmemd
  obtain ⟨message, hm, hc⟩ := process_message_cases env
    (initialize_target_labels labels0 fresh).1 st id st' ds h
  rcases hc with ⟨-, hds, -⟩ | ⟨result, hcl, hc⟩
  · subst hds
    simp at hmemd
  rcases hc with ⟨-, hds, hll⟩ | ⟨label_id, -, hc⟩
  · have := hkey env.llm (find_subject message.headers)
      (email_content_of (find_subject message.headers) message.snippet)
      result labels0 fresh hcl
    rw [hll] at this
    cases this
  rcases hc with ⟨-, hds, -⟩ | ⟨-, -, -, hds⟩ <;>
    · subst hds
      simp at hmemd

/-- Concrete instantiation of `C8_label_not_found_unreachable`: a result
categorized "Notices" resolves in the registry built from an empty
provider label list. -/
theorem C8_label_not_found_unreachable_witness :
    (lookupLabel (initialize_target_labels [] (fun n => s!"CL{n}")).1
        (pyLower (pyStrip "Notices"))).isSome = true :=
  C8_label_not_found_unreachable.1 (fun _ _ => .parsed (some "s") (some "Notices"))
    "t" "ct" { summary := "s", category := "Notices" } [] (fun n => s!"CL{n}")
    (by decide)

/-- C9: a fetched message whose headers contain no "Subject" entry
(case-insensitively) is processed with the empty string as title rather
than failing: the subject scan returns "", the rest of `process_message`
is the body run with title "", so classification is still attempted with
that empty title, and any log row the call appends records an empty title
field. -/
theorem C9_missing_subject (env : Env) (lmap : List (String × String))
    (st : RunState) (id : String) (message : GmailMessage)
    (hm : lookupMsg st.msgs id = some message)
    (hns : ∀ h ∈ message.headers, pyLower h.1 ≠ "subject") :
    find_subject message.headers = "" ∧
    process_message env lmap st id = process_message_core env lmap st id message "" ∧
    (∀ st' ds, process_message env lmap st id = .ok (st', ds) →
      ∀ row ∈ st'.log, row ∉ st.log → row.mailTitle = "") := by
  have hfs : find_subject message.headers = "" := find_subject_eq_empty _ hns
  refine ⟨hfs, ?_, ?_⟩
  · unfold process_message
    rw [hm]
    show process_message_core env lmap st id message (find_subject message.headers) = _
    rw [hfs]
  · intro st' ds h row hrow hnot
    obtain ⟨message', hm', hc⟩ := process_message_cases env lmap st id st' ds h
    have hmsg : message' = message := by
      rw [hm] at hm'
      exact (Option.some.injEq _ _ ▸ hm').symm
    subst hmsg
    rcases hc with ⟨hst, -, -⟩ | ⟨result, -, hc⟩
    · rw [hst] at hrow
      exact absurd hrow hnot
    rcases hc with ⟨hst, -, -⟩ | ⟨label_id, -, hc⟩
    · rw [hst] at hrow
      exact absurd hrow hnot
    rcases hc with ⟨hst, -, -⟩ | ⟨-, -, hst, -⟩
    · rw [hst] at hrow
      exact absurd hrow hnot
    · rw [hst] at hrow
      simp only [List.mem_append] at hrow
      rcases hrow with h1 | h2
      · exact absurd h1 hnot
      · rw [List.mem_singleton] at h2
        rw [h2, hfs]

/-- Concrete instantiation of `C9_missing_subject` on the fixture message
"m2", which has only a "From" header. -/
theorem C9_missing_subject_witness :
    find_subject msgNoSubject.headers = "" ∧
    process_message sampleEnv [("documents", "L4")] sampleState "m2"
      = process_message_core sampleEnv [("documents", "L4")] sampleState "m2"
          msgNoSubject "" ∧
    (∀ st' ds,
      process_message sampleEnv [("documents", "L4")] sampleState "m2" = .ok (st', ds) →
      ∀ row ∈ st'.log, row ∉ sampleState.log → row.mailTitle = "") :=
  C9_missing_subject sampleEnv [("documents", "L4")] sampleState "m2" msgNoSubject
    (by decide) (by decide)

/-- C10: the --count argument undergoes no positivity validation. With
count 0 the driver still reports the eligible total but processes no
message (and so changes nothing beyond label creation); with a negative
count -k it processes the first M - k messages of the newest-first
selection (none when k ≥ M), exactly Python's `messages[:count]` slice
semantics — the argument is never rejected. -/
theorem C10_count_without_validation (env : Env) (st : RunState)
    (sel : List String) (k : Nat)
    (hsel : get_uncategorized_messages st.msgs env.queryIds = .ok sel)
    (hne : sel ≠ []) (hk : 0 < k) :
    run_main env (some 0) st =
      .ok ({ st with labels := (initialize_target_labels st.labels env.freshLabelId).2 },
           [.foundEligible sel.length]) ∧
    run_main env (some (-(k : Int))) st =
      (match process_loop env (initialize_target_labels st.labels env.freshLabelId).1
          { st with labels := (initialize_target_labels st.labels env.freshLabelId).2 }
          (sel.take (sel.length - k)) with
       | .error e => .error e
       | .ok r => .ok (r.1, .foundEligible sel.length :: r.2)) := by
  have hie : sel.isEmpty = false := by simp [hne]
  constructor
  · rw [run_main_eq env (some 0) st sel hsel, hie]
    simp only [Bool.false_eq_true, if_false]
    rw [show pySlice sel ((0 : Int)) = [] from pySlice_zero sel]
    rfl
  · rw [run_main_eq env (some (-(k : Int))) st sel hsel, hie]
    simp only [Bool.false_eq_true, if_false]
    rw [pySlice_neg sel k hk]

/-- Concrete instantiation of `C10_count_without_validation` on the
two-message fixture with k = 1. -/
theorem C10_count_without_validation_witness :
    run_main sampleEnv (some 0) sampleState =
      .ok ({ sampleState with
             labels := (initialize_target_labels sampleState.labels
               sampleEnv.freshLabelId).2 },
           [.foundEligible ["m1", "m2"].length]) ∧
    run_main sampleEnv (some (-(1 : Nat) : Int)) sampleState =
      (match process_loop sampleEnv
          (initialize_target_labels sampleState.labels sampleEnv.freshLabelId).1
          { sampleState with
            labels := (initialize_target_labels sampleState.labels
              sampleEnv.freshLabelId).2 }
          (["m1", "m2"].take (["m1", "m2"].length - 1)) with
       | .error e => .error e
       | .ok r => .ok (r.1, .foundEligible ["m1", "m2"].length :: r.2)) :=
  C10_count_without_validation sampleEnv sampleState ["m1", "m2"] 1
    (by rfl) (by decide) (by decide)

/-- C2 (code-bug demonstration): the source wraps no try/except around the
label-modify call at line 231, so a provider error there propagates out of
`process_message` and out of `main`'s loop — the run aborts with the
raised exception. On the two-message fixture where modify fails on the
newest message "m1", the whole run ends in that error: no diagnostic is
printed, no log row is appended, and the second candidate "m2" is never
processed, contradicting the spec's requirement that such a failure be
contained to the single message. -/
theorem C2_modify_failure_aborts_run :
    run_main failEnv none sampleState = .error (.httpError "m1") := by
  rfl

/-- C6: selector ordering. The id sequence the selector returns is sorted
by descending receipt timestamp: for every pair of adjacent elements the
earlier one's `internalDate` is ≥ the later one's, and strictly greater
when the two timestamps differ. -/
theorem C6_selection_sorted_desc (msgs : List (String × GmailMessage))
    (qids sel : List String)
    (h : get_uncategorized_messages msgs qids = .ok sel) :
    List.Chain' (fun a b => dateOf msgs b ≤ dateOf msgs a ∧
      (dateOf msgs a ≠ dateOf msgs b → dateOf msgs b < dateOf msgs a)) sel := by
  unfold get_uncategorized_messages at h
  split at h
  · exact Except.noConfusion h
  · rename_i detailed hdet
    simp only [Except.ok.injEq] at h
    subst h
    have hsorted := sortByDateDesc_sorted detailed
    have hmemd : ∀ p ∈ sortByDateDesc detailed, dateOf msgs p.1 = p.2 := by
      intro p hp
      exact fetch_dates_mem msgs qids detailed hdet p
        ((sortByDateDesc_perm detailed).mem_iff.mp hp)
    have hpair : (sortByDateDesc detailed).Pairwise
        (fun p q => dateOf msgs q.1 ≤ dateOf msgs p.1 ∧
          (dateOf msgs p.1 ≠ dateOf msgs q.1 → dateOf msgs q.1 < dateOf msgs p.1)) := by
      refine List.Pairwise.imp_of_mem ?_ hsorted
      intro p q hp hq hle
      rw [hmemd p hp, hmemd q hq]
      exact ⟨hle, fun hne => lt_of_le_of_ne hle fun hc => hne hc.symm⟩
    rw [List.chain'_map]
    exact hpair.chain'

/-- Concrete instantiation of `C6_selection_sorted_desc`: the fixture
query lists ["m2", "m1"] (dates 100 and 200); the selector returns
["m1", "m2"], newest first. -/
theorem C6_selection_sorted_desc_witness :
    List.Chain' (fun a b => dateOf sampleState.msgs b ≤ dateOf sampleState.msgs a ∧
      (dateOf sampleState.msgs a ≠ dateOf sampleState.msgs b →
        dateOf sampleState.msgs b < dateOf sampleState.msgs a)) ["m1", "m2"] :=
  C6_selection_sorted_desc sampleState.msgs sampleEnv.queryIds ["m1", "m2"] (by rfl)

/-- C7: final-output counts. A completed run over a nonempty selection
reports in its output how many eligible messages were found (the leading
"Found M eligible messages" diagnostic), and the successfully processed
count is reported implicitly exactly as the spec states: the number of log
rows the run appended equals the number of "categorized" success
diagnostics in the output — one per successfully processed message. -/
theorem C7_run_reports_counts (env : Env) (count? : Option Int) (st st1 : RunState)
    (sel : List String) (out : List Diag)
    (hsel : get_uncategorized_messages st.msgs env.queryIds = .ok sel)
    (hne : sel ≠ [])
    (hrun : run_main env count? st = .ok (st1, out)) :
    out.head? = some (.foundEligible sel.length) ∧
    ∃ rows, st1.log = st.log ++ rows ∧
      rows.length = (out.filter Diag.isCategorized).length := by
  rw [run_main_eq env count? st sel hsel, if_neg (by simp [hne])] at hrun
  split at hrun
  · exact Except.noConfusion hrun
  · rename_i r hl
    simp only [Except.ok.injEq, Prod.mk.injEq] at hrun
    obtain ⟨h1, h2⟩ := hrun
    subst h1
    subst h2
    obtain ⟨-, -, -, ⟨rows, hlog, -, hlen, -⟩, -⟩ :=
      process_loop_spec env _ _ _ _ _ hl
    exact ⟨rfl, rows, hlog, hlen⟩

/-- Concrete instantiation of `C7_run_reports_counts`: processing one of
the two eligible fixture messages yields the Found-2 report and exactly
one appended row matching the single success diagnostic. -/
theorem C7_run_reports_counts_witness :
    ([Diag.foundEligible 2, Diag.categorized "m1" "Documents"] : List Diag).head?
        = some (.foundEligible (["m1", "m2"] : List String).length) ∧
    ∃ rows,
      ({ labels := sampleLabels,
         msgs := [("m1", { internalDate := 200, headers := [("Subject", "hello")],
                           snippet := "see attachment",
                           labelIds := ["INBOX", "L4"] }),
                  ("m2", msgNoSubject)],
         log := [{ mailId := "m1", mailTitle := "hello", summary := "sum",
                   category := "Documents", timestamp := "2026-01-01 00:00:00" }],
         logHeaderWritten := true } : RunState).log
        = sampleState.log ++ rows ∧
      rows.length
        = (([Diag.foundEligible 2, Diag.categorized "m1" "Documents"] : List Diag).filter
            Diag.isCategorized).length :=
  C7_run_reports_counts sampleEnv (some 1) sampleState
    { labels := sampleLabels,
      msgs := [("m1", { internalDate := 200, headers := [("Subject", "hello")],
                        snippet := "see attachment",
                        labelIds := ["INBOX", "L4"] }),
               ("m2", msgNoSubject)],
      log := [{ mailId := "m1", mailTitle := "hello", summary := "sum",
                category := "Documents", timestamp := "2026-01-01 00:00:00" }],
      logHeaderWritten := true }
    ["m1", "m2"]
    [Diag.foundEligible 2, Diag.categorized "m1" "Documents"]
    (by rfl) (by decide) (by rfl)

/-- C5: count bound. With limit N over a selection of M ≥ N eligible ids,
the driver runs the per-message loop on exactly the first N elements of
the newest-first selection (the N most recent); every id in the remaining
M - N is untouched — its stored message is unchanged and no appended log
row mentions it; and with the limit omitted the loop runs over the whole
selection. -/
theorem C5_count_bound (env : Env) (st : RunState) (sel : List String) (N : Nat)
    (hsel : get_uncategorized_messages st.msgs env.queryIds = .ok sel)
    (hne : sel ≠ []) (hN : N ≤ sel.length) (hnd : env.queryIds.Nodup) :
    (run_main env (some (N : Int)) st =
      (match process_loop env (initialize_target_labels st.labels env.freshLabelId).1
          { st with labels := (initialize_target_labels st.labels env.freshLabelId).2 }
          (sel.take N) with
       | .error e => .error e
       | .ok r => .ok (r.1, .foundEligible sel.length :: r.2))) ∧
    (∀ st1 out, run_main env (some (N : Int)) st = .ok (st1, out) →
      ∀ id ∈ sel.drop N,
        lookupMsg st1.msgs id = lookupMsg st.msgs id ∧
        ∃ rows, st1.log = st.log ++ rows ∧ ∀ row ∈ rows, row.mailId ≠ id) ∧
    (run_main env none st =
      (match process_loop env (initialize_target_labels st.labels env.freshLabelId).1
          { st with labels := (initialize_target_labels st.labels env.freshLabelId).2 }
          sel with
       | .error e => .error e
       | .ok r => .ok (r.1, .foundEligible sel.length :: r.2))) := by
  have hie : ¬(sel.isEmpty = true) := by simp [hne]
  have heq1 : run_main env (some (N : Int)) st =
      (match process_loop env (initialize_target_labels st.labels env.freshLabelId).1
          { st with labels := (initialize_target_labels st.labels env.freshLabelId).2 }
          (sel.take N) with
       | .error e => .error e
       | .ok r => .ok (r.1, .foundEligible sel.length :: r.2)) := by
    rw [run_main_eq env (some (N : Int)) st sel hsel, if_neg hie, pySlice_nonneg]
  refine ⟨heq1, ?_, ?_⟩
  · intro st1 out hrun
    rw [heq1] at hrun
    split at hrun
    · exact Except.noConfusion hrun
    · rename_i r hl
      simp only [Except.ok.injEq, Prod.mk.injEq] at hrun
      obtain ⟨h1, -⟩ := hrun
      subst h1
      intro id hid
      obtain ⟨-, -, huntouched, ⟨rows, hlog, hmid, -, -⟩, -⟩ :=
        process_loop_spec env _ _ _ _ _ hl
      have hseln : sel.Nodup :=
        (get_uncategorized_perm st.msgs env.queryIds sel hsel).nodup_iff.mpr hnd
      have hsplit : (sel.take N ++ sel.drop N).Nodup := by
        rw [List.take_append_drop]
        exact hseln
      have hdisj := (List.nodup_append.mp hsplit).2.2
      have hidnot : id ∉ sel.take N := fun hc => hdisj hc hid
      refine ⟨huntouched id hidnot, rows, hlog, ?_⟩
      intro row hrow heq
      exact hidnot (heq ▸ hmid row hrow)
  · rw [run_main_eq env none st sel hsel, if_neg hie, pySlice_nonneg,
      List.take_length]

/-- Concrete instantiation of `C5_count_bound` (first conjunct) on the
two-message fixture with limit 1: the driver runs the loop on exactly the
single newest id "m1". -/
theorem C5_count_bound_witness :
    run_main sampleEnv (some ((1 : Nat) : Int)) sampleState =
      (match process_loop sampleEnv
          (initialize_target_labels sampleState.labels sampleEnv.freshLabelId).1
          { sampleState with
            labels := (initialize_target_labels sampleState.labels
              sampleEnv.freshLabelId).2 }
          (["m1", "m2"].take 1) with
       | .error e => .error e
       | .ok r => .ok (r.1, .foundEligible (["m1", "m2"] : List String).length :: r.2)) :=
  (C5_count_bound sampleEnv sampleState ["m1", "m2"] 1
    (by rfl) (by decide) (by decide) (by decide)).1

/-- A run whose label registry is already settled and whose processed ids
are all stable is a complete no-op on the provider state and the log, and
never issues a label-add mutation. -/
theorem run_main_noop (env : Env) (count? : Option Int) (st : RunState)
    (sel : List String)
    (hsel : get_uncategorized_messages st.msgs env.queryIds = .ok sel)
    (hlab2 : (initialize_target_labels st.labels env.freshLabelId).2 = st.labels)
    (hstable : ∀ id ∈ pySlice sel (match count? with
                                   | some c => c
                                   | none => (sel.length : Int)),
        StableFor env (initialize_target_labels st.labels env.freshLabelId).1
          st.msgs id) :
    ∃ out2, run_main env count? st = .ok (st, out2) ∧
      ∀ d ∈ out2, d.isCategorized = false := by
  have hrec : ({ st with
      labels := (initialize_target_labels st.labels env.freshLabelId).2 } : RunState)
      = st := by
    rw [hlab2]
  rw [run_main_eq env count? st sel hsel, hrec]
  by_cases hie : sel.isEmpty = true
  · rw [if_pos hie]
    refine ⟨[.noEligible], rfl, ?_⟩
    intro d hd
    simp at hd
    subst hd
    rfl
  · rw [if_neg hie]
    obtain ⟨ds, hds, hnc⟩ := process_loop_noop env
      (initialize_target_labels st.labels env.freshLabelId).1 _ st hstable
    rw [hds]
    refine ⟨.foundEligible sel.length :: ds, rfl, ?_⟩
    intro d hd
    rcases List.mem_cons.mp hd with h1 | h2
    · subst h1
      rfl
    · exact hnc d h2

/-- C1: idempotent label application. (a) When the label resolved for the
classified category is already in the message's label set,
`process_message` performs no label-add mutation and appends no log row —
it returns the state unchanged with only the "already labeled" skip
diagnostic. (b) Consequently, running the full pipeline a second time over
the mailbox state a completed run left behind (same environment: same
deterministic classifier, query listing and count) returns that state
unchanged and emits no "categorized" diagnostic — no label-add and no new
log row, so each label is applied at most once across the two runs.
(c) With distinct ids in the provider listing, one completed run appends
at most one log row per message: the appended rows carry pairwise-distinct
mail ids. -/
theorem C1_idempotent_label_application :
    (∀ (env : Env) (lmap : List (String × String)) (st : RunState) (id : String)
        (message : GmailMessage) (result : ClassificationResult) (label_id : String),
        lookupMsg st.msgs id = some message →
        classify_email_with_chatgpt env.llm (find_subject message.headers)
            (email_content_of (find_subject message.headers) message.snippet)
          = some result →
        lookupLabel lmap (pyLower (pyStrip result.category)) = some label_id →
        label_id ∈ message.labelIds →
        process_message env lmap st id
          = .ok (st, [.alreadyLabeled id (pyStrip result.category)]))
    ∧ (∀ (env : Env) (count? : Option Int) (st st1 : RunState) (out1 : List Diag),
        run_main env count? st = .ok (st1, out1) →
        ∃ out2, run_main env count? st1 = .ok (st1, out2) ∧
          ∀ d ∈ out2, d.isCategorized = false)
    ∧ (∀ (env : Env) (count? : Option Int) (st st1 : RunState) (out1 : List Diag),
        env.queryIds.Nodup →
        run_main env count? st = .ok (st1, out1) →
        ∃ rows, st1.log = st.log ++ rows ∧ (rows.map LogRow.mailId).Nodup) := by
  refine ⟨?_, ?_, ?_⟩
  · intro env lmap st id message result label_id hm hcl hll hmem
    have hct : message.labelIds.contains label_id = true := by simpa using hmem
    unfold process_message
    rw [hm]
    show process_message_core env lmap st id message (find_subject message.headers) = _
    unfold process_message_core
    rw [hcl]
    show apply_and_log env lmap st id message (find_subject message.headers) result = _
    unfold apply_and_log
    rw [hll]
    exact if_pos hct
  · intro env count? st st1 out1 hrun
    cases hsel : get_uncategorized_messages st.msgs env.queryIds with
    | error e =>
        rw [run_main_sel_error env count? st e hsel] at hrun
        exact Except.noConfusion hrun
    | ok sel =>
        rw [run_main_eq env count? st sel hsel] at hrun
        by_cases hie : sel.isEmpty = true
        · rw [if_pos hie] at hrun
          simp only [Except.ok.injEq, Prod.mk.injEq] at hrun
          obtain ⟨h1, -⟩ := hrun
          subst h1
          have hsel2 : get_uncategorized_messages
              ({ st with labels := (initialize_target_labels st.labels
                  env.freshLabelId).2 } : RunState).msgs env.queryIds = .ok sel := hsel
          have hlab2 : (initialize_target_labels
              ({ st with labels := (initialize_target_labels st.labels
                  env.freshLabelId).2 } : RunState).labels env.freshLabelId).2
              = ({ st with labels := (initialize_target_labels st.labels
                  env.freshLabelId).2 } : RunState).labels :=
            congrArg Prod.snd (initialize_target_labels_stable st.labels
              env.freshLabelId env.freshLabelId)
          refine run_main_noop env count? _ sel hsel2 hlab2 ?_
          intro id hid
          have hnil : sel = [] := by simpa using hie
          subst hnil
          simp [pySlice] at hid
        · rw [if_neg hie] at hrun
          split at hrun
          · exact Except.noConfusion hrun
          · rename_i r hl
            simp only [Except.ok.injEq, Prod.mk.injEq] at hrun
            obtain ⟨h1, -⟩ := hrun
            subst h1
            obtain ⟨hlabs, hev, -, -, hstb⟩ := process_loop_spec env _ _ _ _ _ hl
            have hev' : MsgsEvolve st.msgs r.1.msgs := hev
            have hsel2 : get_uncategorized_messages r.1.msgs env.queryIds = .ok sel :=
              (get_uncategorized_congr st.msgs r.1.msgs env.queryIds hev').trans hsel
            have hlabs' : r.1.labels
                = (initialize_target_labels st.labels env.freshLabelId).2 := hlabs
            have hM : initialize_target_labels r.1.labels env.freshLabelId
                = initialize_target_labels st.labels env.freshLabelId := by
              rw [hlabs']
              exact initialize_target_labels_stable st.labels env.freshLabelId
                env.freshLabelId
            have hlab2 : (initialize_target_labels r.1.labels env.freshLabelId).2
                = r.1.labels := by
              rw [hM, ← hlabs']
            refine run_main_noop env count? r.1 sel hsel2 hlab2 ?_
            intro id hid
            rw [hM]
            exact hstb id hid
  · intro env count? st st1 out1 hnd hrun
    cases hsel : get_uncategorized_messages st.msgs env.queryIds with
    | error e =>
        rw [run_main_sel_error env count? st e hsel] at hrun
        exact Except.noConfusion hrun
    | ok sel =>
        rw [run_main_eq env count? st sel hsel] at hrun
        by_cases hie : sel.isEmpty = true
        · rw [if_pos hie] at hrun
          simp only [Except.ok.injEq, Prod.mk.injEq] at hrun
          obtain ⟨h1, -⟩ := hrun
          subst h1
          exact ⟨[], by simp, by simp⟩
        · rw [if_neg hie] at hrun
          split at hrun
          · exact Except.noConfusion hrun
          · rename_i r hl
            simp only [Except.ok.injEq, Prod.mk.injEq] at hrun
            obtain ⟨h1, -⟩ := hrun
            subst h1
            obtain ⟨-, -, -, ⟨rows, hlog, -, -, hndr⟩, -⟩ :=
              process_loop_spec env _ _ _ _ _ hl
            have hseln : sel.Nodup :=
              (get_uncategorized_perm st.msgs env.queryIds sel hsel).nodup_iff.mpr hnd
            exact ⟨rows, hlog, hndr (hseln.sublist (pySlice_sublist sel _))⟩

/-- Concrete instantiation of `C1_idempotent_label_application` (second
conjunct): a completed first run over the fixture labels both messages
"Documents" and appends two log rows; the second run over the resulting
state returns it unchanged and issues no label-add. -/
theorem C1_idempotent_label_application_witness :
    ∃ out2,
      run_main sampleEnv none
        { labels := sampleLabels,
          msgs := [("m1", { internalDate := 200, headers := [("Subject", "hello")],
                            snippet := "see attachment",
                            labelIds := ["INBOX", "L4"] }),
                   ("m2", { internalDate := 100, headers := [("From", "alice")],
                            snippet := "hi there", labelIds := ["L4"] })],
          log := [{ mailId := "m1", mailTitle := "hello", summary := "sum",
                    category := "Documents", timestamp := "2026-01-01 00:00:00" },
                  { mailId := "m2", mailTitle := "", summary := "sum",
                    category := "Documents", timestamp := "2026-01-01 00:00:00" }],
          logHeaderWritten := true }
        = .ok ({ labels := sampleLabels,
                 msgs := [("m1", { internalDate := 200,
                                   headers := [("Subject", "hello")],
                                   snippet := "see attachment",
                                   labelIds := ["INBOX", "L4"] }),
                          ("m2", { internalDate := 100,
                                   headers := [("From", "alice")],
                                   snippet := "hi there", labelIds := ["L4"] })],
                 log := [{ mailId := "m1", mailTitle := "hello", summary := "sum",
                           category := "Documents",
                           timestamp := "2026-01-01 00:00:00" },
                         { mailId := "m2", mailTitle := "", summary := "sum",
                           category := "Documents",
                           timestamp := "2026-01-01 00:00:00" }],
                 logHeaderWritten := true }, out2) ∧
      ∀ d ∈ out2, d.isCategorized = false :=
  C1_idempotent_label_application.2.1 sampleEnv none sampleState
    { labels := sampleLabels,
      msgs := [("m1", { internalDate := 200, headers := [("Subject", "hello")],
                        snippet := "see attachment",
                        labelIds := ["INBOX", "L4"] }),
               ("m2", { internalDate := 100, headers := [("From", "alice")],
                        snippet := "hi there", labelIds := ["L4"] })],
      log := [{ mailId := "m1", mailTitle := "hello", summary := "sum",
                category := "Documents", timestamp := "2026-01-01 00:00:00" },
              { mailId := "m2", mailTitle := "", summary := "sum",
                category := "Documents", timestamp := "2026-01-01 00:00:00" }],
      logHeaderWritten := true }
    [.foundEligible 2, .categorized "m1" "Documents", .categorized "m2" "Documents"]
    (by rfl)

end JunkBGone
